import Mathlib

/-!
Shallow embedding of the `quirs` crate (a safe wrapper around the `quirc`
QR-code engine) and verification of its specification claims.

Modelling conventions:
- Rust `usize` values are `Nat`s bounded by `usizeMax su` where `su` is
  `size_of::<usize>()` in bytes; the concrete target platform has `su = 8`.
- C `int` values are `Int`s in `[intMin si, intMax si]` where `si` is
  `size_of::<c_int>()` in bytes; the concrete target platform has `si = 4`.
- Wrapping casts (`as`) are modelled explicitly with `% 2^w` arithmetic.
- A Rust operation that can panic (slice indexing / slicing out of bounds,
  a failed `assert!` or `expect`) is modelled with an `Option` layer whose
  `none` means "panic"; fallible operations return `Except Error`.
-/

/-- Decoding-error taxonomy of `src/error.rs` (`DecodingErrorKind`). -/
inductive DecodingErrorKind where
  | Unknown
  | InvalidGridSize
  | InvalidVersion
  | FormatEcc
  | DataEcc
  | UnknownDataType
  | DataOverflow
  | DataUnderflow
deriving DecidableEq, Repr

/-- Top-level error enumeration of `src/error.rs` (`Error`). -/
inductive Error where
  | AllocFailed
  | SizeMismatch
  | IntOverflow
  | DecodingFailed (kind : DecodingErrorKind)
deriving DecidableEq, Repr

/-- The engine's decode-error code enumeration (`quirc_decode_error_t` in
`src/quirc_sys.rs`), with `success` being `QUIRC_SUCCESS`. -/
inductive QuircDecodeError where
  | success
  | invalidGridSize
  | invalidVersion
  | formatEcc
  | dataEcc
  | unknownDataType
  | dataOverflow
  | dataUnderflow
deriving DecidableEq, Repr

/-- The `From<quirc_decode_error_t> for DecodingErrorKind` mapping in
`src/error.rs` lines 86-102: seven named arms plus a catch-all to `Unknown`. -/
def DecodingErrorKind.fromCode : QuircDecodeError → DecodingErrorKind
  | .invalidGridSize => .InvalidGridSize
  | .invalidVersion => .InvalidVersion
  | .formatEcc => .FormatEcc
  | .dataEcc => .DataEcc
  | .unknownDataType => .UnknownDataType
  | .dataOverflow => .DataOverflow
  | .dataUnderflow => .DataUnderflow
  | _ => .Unknown

/-- Largest value of a signed two's-complement integer of `si` bytes
(`INT_MAX` for `si = size_of::<c_int>()`). -/
def intMax (si : Nat) : Int := 2 ^ (8 * si - 1) - 1

/-- Smallest value of a signed two's-complement integer of `si` bytes. -/
def intMin (si : Nat) : Int := -(2 ^ (8 * si - 1))

/-- Largest value of an unsigned integer of `su` bytes
(`usize::MAX` for `su = size_of::<usize>()`). -/
def usizeMax (su : Nat) : Nat := 2 ^ (8 * su) - 1

/-- Wrapping cast of an unsigned value to a signed two's-complement integer
of `si` bytes (Rust `as c_int` on an unsigned source). -/
def wrapToInt (si : Nat) (n : Nat) : Int :=
  let m := n % 2 ^ (8 * si)
  if m < 2 ^ (8 * si - 1) then (m : Int) else (m : Int) - 2 ^ (8 * si)

/-- Wrapping cast of a signed value to an unsigned integer of `su` bytes
(Rust `as usize`): the value is reduced modulo `2^(8*su)`. -/
def wrapToNat (su : Nat) (n : Int) : Nat := (n % (2 ^ (8 * su) : Int)).toNat

/-- Embedding of `usize_to_int` from `src/util.rs` lines 10-18, parametric in
the byte widths `su = size_of::<usize>()` and `si = size_of::<c_int>()`.
The source compares `size_of` results and `n <= INT_MAX as usize`; the
`INT_MAX as usize` cast in the second branch is value-preserving there
because that branch has `si <= su`. -/
def usize_to_int (su si : Nat) (n : Nat) : Except Error Int :=
  if su < si then
    Except.ok (wrapToInt si n)
  else if n ≤ (intMax si).toNat then
    Except.ok (wrapToInt si n)
  else
    Except.error Error.IntOverflow

/-- Embedding of `int_to_usize` from `src/util.rs` lines 22-32, parametric in
the byte widths. The third branch compares against `usize::MAX as c_int`,
modelled by the wrapping cast `wrapToInt si (usizeMax su)`. -/
def int_to_usize (su si : Nat) (n : Int) : Except Error Nat :=
  if n < 0 then
    Except.error Error.IntOverflow
  else if si ≤ su then
    Except.ok (wrapToNat su n)
  else if n ≤ wrapToInt si (usizeMax su) then
    Except.ok (wrapToNat su n)
  else
    Except.error Error.IntOverflow

/-- Byte width of `usize` on the concrete 64-bit target platform. -/
def usizeBytes : Nat := 8

/-- Byte width of `c_int` on the concrete target platform. -/
def intBytes : Nat := 4

/-- Maximum size in bytes of the engine's fixed cell-bitmap buffer
(`QUIRC_MAX_BITMAP` in `src/quirc_sys.rs`). -/
def QUIRC_MAX_BITMAP : Nat := 3917

/-- Maximum payload size in bytes (`QUIRC_MAX_PAYLOAD` in `src/quirc_sys.rs`). -/
def QUIRC_MAX_PAYLOAD : Nat := 8896

/-- Embedding of `quirc_point` (`src/quirc_sys.rs`): two `c_int` coordinates. -/
structure QuircPoint where
  x : Int
  y : Int
deriving DecidableEq, Repr

/-- Embedding of `Vec2D` (`src/geom.rs`): two `usize` coordinates. -/
structure Vec2D where
  x : Nat
  y : Nat
deriving DecidableEq, Repr

/-- Embedding of `Vec2D::from_raw` (`src/geom.rs` lines 22-25): checked
conversion of both coordinates through the integer bridge. -/
def Vec2D.fromRaw (p : QuircPoint) : Except Error Vec2D := do
  let x ← int_to_usize usizeBytes intBytes p.x
  let y ← int_to_usize usizeBytes intBytes p.y
  pure ⟨x, y⟩

/-- Embedding of `Image` (`src/geom.rs`): a byte buffer plus dimensions. -/
structure Image where
  data : List Nat
  size : Vec2D
deriving DecidableEq, Repr

/-- Embedding of `Image::new` (`src/geom.rs` lines 40-46). The Rust
comparison `data.len() == size.x * size.y` computes the product in `usize`
arithmetic, which wraps modulo `2^64` on overflow (release semantics), so
the product is modelled with an explicit `% 2^(8*usizeBytes)`. -/
def Image.new (data : List Nat) (size : Vec2D) : Except Error Image :=
  if data.length = (size.x * size.y) % 2 ^ (8 * usizeBytes) then
    Except.ok ⟨data, size⟩
  else
    Except.error Error.SizeMismatch

/-- Embedding of `quirc_code` (`src/quirc_sys.rs`): four corners, a `c_int`
grid size, and the fixed `[u8; QUIRC_MAX_BITMAP]` cell bitmap, modelled as a
byte list whose length is `QUIRC_MAX_BITMAP` (stated as a hypothesis where
it matters). -/
structure QuircCode where
  corners : Fin 4 → QuircPoint
  size : Int
  cell_bitmap : List Nat

/-- Embedding of `QrCode::from_raw` (`src/geom.rs` lines 71-79): validate the
size and the four corners through the integer bridge, then wrap the raw
record unchanged. -/
def QrCode.fromRaw (raw : QuircCode) : Except Error QuircCode := do
  let _ ← int_to_usize usizeBytes intBytes raw.size
  let _ ← Vec2D.fromRaw (raw.corners 0)
  let _ ← Vec2D.fromRaw (raw.corners 1)
  let _ ← Vec2D.fromRaw (raw.corners 2)
  let _ ← Vec2D.fromRaw (raw.corners 3)
  pure raw

/-- Embedding of `QrCode::size` (`src/geom.rs` lines 110-115):
`int_to_usize(self.0.size).expect(..)`; the `none` outcome models the
`expect` panic on an unrepresentable size. -/
def QrCode.size (c : QuircCode) : Option Nat :=
  match int_to_usize usizeBytes intBytes c.size with
  | Except.ok n => some n
  | Except.error _ => none

/-- Embedding of `QrCode::bitmap` (`src/geom.rs` lines 120-125):
`&self.0.cell_bitmap[..num_bytes]`. Rust range-slicing panics when the
requested length exceeds the buffer length; the `none` outcome models that
panic (and the `expect` inside `size()`). -/
def QrCode.bitmap (c : QuircCode) : Option (List Nat) :=
  match QrCode.size c with
  | none => none
  | some size =>
    let num_bits := size * size
    let num_bytes := (num_bits + 7) / 8
    if num_bytes ≤ c.cell_bitmap.length then
      some (c.cell_bitmap.take num_bytes)
    else
      none

/-- Embedding of `QrCode::get` (`src/geom.rs` lines 129-140). The outer
`Option` layer models panics: `none` is a panic (either the `expect` inside
`size()` or an out-of-bounds `cell_bitmap[i / 8]` indexing); `some none` is
the normal `None` answer for an out-of-range coordinate; `some (some b)` is
the normal `Some(b)` answer. -/
def QrCode.get (c : QuircCode) (coord : Vec2D) : Option (Option Bool) :=
  match QrCode.size c with
  | none => none
  | some size =>
    if coord.x < size ∧ coord.y < size then
      let i := coord.y * size + coord.x
      match c.cell_bitmap[i / 8]? with
      | none => none
      | some b => some (some (((b >>> (i % 8)) &&& 1) != 0))
    else
      some none

/-- Bit number `i` of a byte sequence under LSB-first ordering within each
byte: the specification's description of the cell-bitmap addressing. -/
def bitAtLSB (bytes : List Nat) (i : Nat) : Bool :=
  ((bytes.getD (i / 8) 0) >>> (i % 8)) &&& 1 != 0

/-- Embedding of `quirc_data` (`src/quirc_sys.rs`): `c_int` scalar fields,
the fixed `[u8; QUIRC_MAX_PAYLOAD]` payload buffer as a byte list, and the
`u32` field `eci` as a `Nat`. -/
structure QuircData where
  version : Int
  ecc_level : Int
  mask : Int
  data_type : Int
  payload : List Nat
  payload_len : Int
  eci : Nat
deriving DecidableEq, Repr

/-- The `EccLevel` enumeration of `src/info.rs`. -/
inductive EccLevel where
  | L
  | M
  | Q
  | H
deriving DecidableEq, Repr

/-- The `DataType` enumeration of `src/info.rs`. -/
inductive DataType where
  | Numeric
  | Alphanumeric
  | Byte
  | Kanji
deriving DecidableEq, Repr

/-- Wrapping cast of a `c_int` value to `u8` (Rust `as u8`). -/
def castU8 (n : Int) : Nat := (n % 256).toNat

/-- Embedding of `Info::version` (`src/info.rs` lines 23-25):
`max(1, min(version, 40)) as u8`. -/
def Info.version (d : QuircData) : Nat := castU8 (max 1 (min d.version 40))

/-- Embedding of `Info::mask_id` (`src/info.rs` lines 29-31):
`max(0, min(mask, 7)) as u8`. -/
def Info.mask_id (d : QuircData) : Nat := castU8 (max 0 (min d.mask 7))

/-- Embedding of `Info::eci` (`src/info.rs` lines 35-37): the field is `u32`,
so the clamp `max(0, min(eci, 30))` runs in unsigned arithmetic, and the
final `as u8` cast is modelled by `% 256`. -/
def Info.eci (d : QuircData) : Nat := (max 0 (min d.eci 30)) % 256

/-- Embedding of `Info::ecc_level` (`src/info.rs` lines 40-57): an if-chain
against the engine constants `QUIRC_ECC_LEVEL_L = 1`, `M = 0`, `Q = 3`,
`H = 2` cast to `c_int`, with `L` as the fallback. -/
def Info.ecc_level (d : QuircData) : EccLevel :=
  if d.ecc_level = 1 then EccLevel.L
  else if d.ecc_level = 0 then EccLevel.M
  else if d.ecc_level = 3 then EccLevel.Q
  else if d.ecc_level = 2 then EccLevel.H
  else EccLevel.L

/-- Embedding of `Info::data_type` (`src/info.rs` lines 60-76): an if-chain
against the engine constants `QUIRC_DATA_TYPE_NUMERIC = 1`, `ALPHA = 2`,
`BYTE = 4`, `KANJI = 8`, with `Byte` as the fallback. -/
def Info.data_type (d : QuircData) : DataType :=
  if d.data_type = 1 then DataType.Numeric
  else if d.data_type = 2 then DataType.Alphanumeric
  else if d.data_type = 4 then DataType.Byte
  else if d.data_type = 8 then DataType.Kanji
  else DataType.Byte

/-- Embedding of `Info::payload` (`src/info.rs` lines 79-85):
`max(0, min(payload_len as _, QUIRC_MAX_PAYLOAD))`. The cast target is
inferred as `usize` (both `min` arguments must have the type of
`QUIRC_MAX_PAYLOAD`), so a negative `payload_len` first wraps through
`as usize` (`wrapToNat`) and only then is clamped; the `max(0, ..)` runs on
an unsigned value. -/
def Info.payload (d : QuircData) : List Nat :=
  let len := max 0 (min (wrapToNat usizeBytes d.payload_len) QUIRC_MAX_PAYLOAD)
  d.payload.take len

/-- The engine state visible to a `DetectionIterator` after `decode_image`
(`src/decoder.rs`): a detected-code count as reported by `quirc_count` and
the `quirc_extract` operation. The claim under verification assumes the
count is constant across steps, which is captured by `count` being a plain
field. -/
structure Engine where
  count : Int
  extract : Int → QuircCode

/-- Embedding of `Iter::count_and_index` (`src/decoder.rs` lines 100-110):
re-query the count and pair it with the cursor; the two `assert!`s are
modelled by the `none` (panic) outcome. -/
def countAndIndex (e : Engine) (index : Int) : Option (Int × Int) :=
  if 0 ≤ e.count ∧ 0 ≤ index then some (e.count, index) else none

/-- Embedding of `<Iter as Iterator>::next` (`src/decoder.rs` lines 116-136):
if `index < count`, extract the code at `index`, increment the cursor and
yield `QrCode::from_raw(raw)`; otherwise yield `None`. The result pairs the
yielded element with the new cursor; the outer `none` models the asserts'
panic. -/
def iterNext (e : Engine) (index : Int) :
    Option (Option (Except Error QuircCode) × Int) :=
  match countAndIndex e index with
  | none => none
  | some (cnt, idx) =>
    if idx < cnt then
      some (some (QrCode.fromRaw (e.extract idx)), idx + 1)
    else
      some (none, idx)

/-- Embedding of `<Iter as Iterator>::size_hint` (`src/decoder.rs` lines
138-144): `int_to_usize(count - index)` mapped to an exact `(n, Some n)`
estimate, with `(0, None)` (the `Default` value) on conversion failure. -/
def iterSizeHint (e : Engine) (index : Int) : Option (Nat × Option Nat) :=
  match countAndIndex e index with
  | none => none
  | some (cnt, idx) =>
    some (match int_to_usize usizeBytes intBytes (cnt - idx) with
          | Except.ok n => (n, some n)
          | Except.error _ => (0, none))

/-- The cursor value reached after `n` calls to `next`, starting from the
cursor `0` that `decode_image` returns (`src/decoder.rs` lines 73-76). When
a step would panic the cursor is left unchanged (irrelevant under the
claims' hypotheses, where no panic occurs). -/
def iterStepsIndex (e : Engine) : Nat → Int
  | 0 => 0
  | n + 1 =>
    match iterNext e (iterStepsIndex e n) with
    | some (_, idx) => idx
    | none => iterStepsIndex e n

/-- A zero `quirc_point`. -/
def zeroPoint : QuircPoint := ⟨0, 0⟩

/-- A concrete raw detection record with grid size 178 - one more than the
largest grid any QR code can have - an all-zero bitmap buffer of the
engine's fixed capacity, and zero corners. The engine itself never produces
it, but `QrCode::from_raw` accepts it. -/
def raw178 : QuircCode :=
  ⟨fun _ => zeroPoint, 178, List.replicate QUIRC_MAX_BITMAP 0⟩

/-- A concrete valid-size raw detection record (grid size 21). -/
def raw21 : QuircCode :=
  ⟨fun _ => zeroPoint, 21, List.replicate QUIRC_MAX_BITMAP 0⟩

/-- A concrete `quirc_data` whose `payload_len` is negative. -/
def dataNegLen : QuircData :=
  ⟨0, 0, 0, 0, List.replicate QUIRC_MAX_PAYLOAD 0, -1, 0⟩

/-- A concrete engine that reports two detected codes. -/
def engineTwo : Engine := ⟨2, fun _ => raw21⟩

-- Helper lemmas about the width arithmetic.

theorem two_pow_sub_one_lt (k : Nat) (hk : 1 ≤ k) :
    (2 : Nat) ^ (k - 1) < 2 ^ k := by
  exact Nat.pow_lt_pow_right (by norm_num) (by omega)

theorem wrapToInt_eq_of_lt (si : Nat) (n : Nat) (h : n < 2 ^ (8 * si - 1)) :
    wrapToInt si n = (n : Int) := by
  have hlt : n < 2 ^ (8 * si) := by
    calc n < 2 ^ (8 * si - 1) := h
    _ ≤ 2 ^ (8 * si) := Nat.pow_le_pow_right (by norm_num) (by omega)
  unfold wrapToInt
  simp only [Nat.mod_eq_of_lt hlt]
  rw [if_pos h]

theorem wrapToNat_eq_of_lt (su : Nat) (n : Int) (h0 : 0 ≤ n)
    (h : n < (2 : Int) ^ (8 * su)) : wrapToNat su n = n.toNat := by
  unfold wrapToNat
  rw [Int.emod_eq_of_lt h0 (by exact_mod_cast h)]

theorem intMax_eq_natCast (si : Nat) :
    intMax si = (((2 : Nat) ^ (8 * si - 1) - 1 : Nat) : Int) := by
  unfold intMax
  have h2 : (1 : Nat) ≤ 2 ^ (8 * si - 1) := Nat.one_le_two_pow
  push_cast [h2]
  ring

theorem intMax_toNat (si : Nat) :
    (intMax si).toNat = (2 : Nat) ^ (8 * si - 1) - 1 := by
  rw [intMax_eq_natCast]
  exact Int.toNat_natCast _

theorem usizeMax_le_intMax (su si : Nat) (h : su < si) :
    ((usizeMax su : Nat) : Int) ≤ intMax si := by
  rw [intMax_eq_natCast]
  have h1 : (2 : Nat) ^ (8 * su) ≤ 2 ^ (8 * si - 1) :=
    Nat.pow_le_pow_right (by norm_num) (by omega)
  unfold usizeMax
  exact_mod_cast Nat.sub_le_sub_right h1 1

theorem intMax_le_usizeMax (su si : Nat) (h : si ≤ su) :
    (intMax si).toNat ≤ usizeMax su := by
  rw [intMax_toNat]
  have h1 : (2 : Nat) ^ (8 * si - 1) ≤ 2 ^ (8 * su) :=
    Nat.pow_le_pow_right (by norm_num) (by omega)
  unfold usizeMax
  omega

theorem intMax_toNat_cast (si : Nat) :
    ((intMax si).toNat : Int) = intMax si := by
  rw [intMax_eq_natCast]
  simp

theorem usizeMax_lt_pow (su : Nat) : usizeMax su < 2 ^ (8 * su) := by
  unfold usizeMax
  have := Nat.one_le_two_pow (n := 8 * su)
  omega

theorem usizeMax_cast_lt (su : Nat) :
    ((usizeMax su : Nat) : Int) < (2 : Int) ^ (8 * su) := by
  have h := usizeMax_lt_pow su
  have hc : (((2 : Nat) ^ (8 * su) : Nat) : Int) = (2 : Int) ^ (8 * su) := by
    push_cast
    ring
  omega

theorem wrapToInt_usizeMax (su si : Nat) (h : su < si) :
    wrapToInt si (usizeMax su) = ((usizeMax su : Nat) : Int) := by
  apply wrapToInt_eq_of_lt
  have hpow : (2 : Nat) ^ (8 * su) ≤ 2 ^ (8 * si - 1) :=
    Nat.pow_le_pow_right (by norm_num) (by omega)
  have := usizeMax_lt_pow su
  omega

theorem usize_to_int_ok (su si : Nat) (n : Nat)
    (h : (n : Int) ≤ intMax si) : usize_to_int su si n = Except.ok (n : Int) := by
  have hn' : n ≤ (intMax si).toNat := by omega
  have hlt : n < 2 ^ (8 * si - 1) := by
    have h1 := intMax_toNat si
    have h2 : (1 : Nat) ≤ 2 ^ (8 * si - 1) := Nat.one_le_two_pow
    omega
  unfold usize_to_int
  split_ifs with h1
  · rw [wrapToInt_eq_of_lt si n hlt]
  · rw [wrapToInt_eq_of_lt si n hlt]

theorem usize_to_int_err (su si : Nat) (n : Nat) (hn : n ≤ usizeMax su)
    (h : intMax si < (n : Int)) :
    usize_to_int su si n = Except.error Error.IntOverflow := by
  have h1 : ¬ su < si := by
    intro hc
    have hle := usizeMax_le_intMax su si hc
    have : (n : Int) ≤ intMax si := le_trans (by exact_mod_cast hn) hle
    omega
  have h2 : ¬ n ≤ (intMax si).toNat := by
    have := intMax_toNat_cast si
    omega
  unfold usize_to_int
  rw [if_neg h1, if_neg h2]

theorem int_to_usize_ok (su si : Nat) (m : Int) (h0 : 0 ≤ m)
    (hle : m ≤ ((usizeMax su : Nat) : Int)) :
    int_to_usize su si m = Except.ok m.toNat := by
  have hlt : m < (2 : Int) ^ (8 * su) := lt_of_le_of_lt hle (usizeMax_cast_lt su)
  unfold int_to_usize
  rw [if_neg (by omega)]
  by_cases hc : si ≤ su
  · rw [if_pos hc, wrapToNat_eq_of_lt su m h0 hlt]
  · rw [if_neg hc]
    have hwrap := wrapToInt_usizeMax su si (by omega)
    rw [if_pos (by rw [hwrap]; exact hle), wrapToNat_eq_of_lt su m h0 hlt]

theorem int_to_usize_err (su si : Nat) (m : Int) (hmax : m ≤ intMax si)
    (h : m < 0 ∨ ((usizeMax su : Nat) : Int) < m) :
    int_to_usize su si m = Except.error Error.IntOverflow := by
  unfold int_to_usize
  rcases h with h | h
  · rw [if_pos h]
  · have hnn : (0 : Int) ≤ ((usizeMax su : Nat) : Int) := by positivity
    rw [if_neg (by omega)]
    have hc : ¬ si ≤ su := by
      intro hc
      have h1 := intMax_le_usizeMax su si hc
      have h2 := intMax_toNat_cast si
      omega
    have hwrap := wrapToInt_usizeMax su si (by omega)
    rw [if_neg hc, if_neg (by rw [hwrap]; omega)]

/-- Claim C8: for every `Info` over all possible raw engine field values,
`version()` is always in `1..=40`, `mask_id()` in `0..=7` and `eci()` in
`0..=30`; out-of-range raw inputs are clamped, never rejected. -/
theorem info_scalar_accessors_clamped : ∀ d : QuircData,
    (1 ≤ Info.version d ∧ Info.version d ≤ 40) ∧
    Info.mask_id d ≤ 7 ∧ Info.eci d ≤ 30 := by
  intro d
  unfold Info.version Info.mask_id Info.eci castU8
  omega

/-- Claim C9: the mapping from the engine's decode-error code to
`DecodingErrorKind` is total; each of the seven error codes maps to its
corresponding variant and every other code maps to `Unknown`. -/
theorem decode_error_mapping_total :
    DecodingErrorKind.fromCode .invalidGridSize = .InvalidGridSize ∧
    DecodingErrorKind.fromCode .invalidVersion = .InvalidVersion ∧
    DecodingErrorKind.fromCode .formatEcc = .FormatEcc ∧
    DecodingErrorKind.fromCode .dataEcc = .DataEcc ∧
    DecodingErrorKind.fromCode .unknownDataType = .UnknownDataType ∧
    DecodingErrorKind.fromCode .dataOverflow = .DataOverflow ∧
    DecodingErrorKind.fromCode .dataUnderflow = .DataUnderflow ∧
    (∀ c : QuircDecodeError,
      c ≠ .invalidGridSize → c ≠ .invalidVersion → c ≠ .formatEcc →
      c ≠ .dataEcc → c ≠ .unknownDataType → c ≠ .dataOverflow →
      c ≠ .dataUnderflow → DecodingErrorKind.fromCode c = .Unknown) := by
  refine ⟨rfl, rfl, rfl, rfl, rfl, rfl, rfl, ?_⟩
  intro c h1 h2 h3 h4 h5 h6 h7
  cases c <;> first | rfl | simp_all

/-- Witness for C9: the only other enumerant, `QUIRC_SUCCESS`, maps to
`Unknown`. -/
theorem decode_error_mapping_total_witness :
    DecodingErrorKind.fromCode .success = .Unknown :=
  decode_error_mapping_total.2.2.2.2.2.2.2 .success (by decide) (by decide)
    (by decide) (by decide) (by decide) (by decide) (by decide)

/-- Claim C10: `ecc_level()` maps the engine constants `0,1,2,3` to
`M,L,H,Q` and anything else to `L`; `data_type()` maps `1,2,4,8` to
`Numeric,Alphanumeric,Byte,Kanji` and anything else to `Byte`; both are
total. -/
theorem enum_decoder_fallbacks : ∀ d : QuircData,
    (d.ecc_level = 0 → Info.ecc_level d = EccLevel.M) ∧
    (d.ecc_level = 1 → Info.ecc_level d = EccLevel.L) ∧
    (d.ecc_level = 2 → Info.ecc_level d = EccLevel.H) ∧
    (d.ecc_level = 3 → Info.ecc_level d = EccLevel.Q) ∧
    (d.ecc_level ≠ 0 → d.ecc_level ≠ 1 → d.ecc_level ≠ 2 → d.ecc_level ≠ 3 →
      Info.ecc_level d = EccLevel.L) ∧
    (d.data_type = 1 → Info.data_type d = DataType.Numeric) ∧
    (d.data_type = 2 → Info.data_type d = DataType.Alphanumeric) ∧
    (d.data_type = 4 → Info.data_type d = DataType.Byte) ∧
    (d.data_type = 8 → Info.data_type d = DataType.Kanji) ∧
    (d.data_type ≠ 1 → d.data_type ≠ 2 → d.data_type ≠ 4 → d.data_type ≠ 8 →
      Info.data_type d = DataType.Byte) := by
  intro d
  unfold Info.ecc_level Info.data_type
  refine ⟨?_, ?_, ?_, ?_, ?_, ?_, ?_, ?_, ?_, ?_⟩ <;>
    intros <;> split_ifs <;> simp_all

/-- Witness for C10: concrete raw values exercising every branch, including
the two defensive fallbacks at the unknown raw values 5 and 7. -/
theorem enum_decoder_fallbacks_witness :
    Info.ecc_level ⟨0, 5, 0, 7, [], 0, 0⟩ = EccLevel.L ∧
    Info.data_type ⟨0, 5, 0, 7, [], 0, 0⟩ = DataType.Byte ∧
    Info.ecc_level ⟨0, 0, 0, 1, [], 0, 0⟩ = EccLevel.M ∧
    Info.data_type ⟨0, 0, 0, 1, [], 0, 0⟩ = DataType.Numeric ∧
    Info.ecc_level ⟨0, 1, 0, 2, [], 0, 0⟩ = EccLevel.L ∧
    Info.data_type ⟨0, 1, 0, 2, [], 0, 0⟩ = DataType.Alphanumeric ∧
    Info.ecc_level ⟨0, 2, 0, 4, [], 0, 0⟩ = EccLevel.H ∧
    Info.data_type ⟨0, 2, 0, 4, [], 0, 0⟩ = DataType.Byte ∧
    Info.ecc_level ⟨0, 3, 0, 8, [], 0, 0⟩ = EccLevel.Q ∧
    Info.data_type ⟨0, 3, 0, 8, [], 0, 0⟩ = DataType.Kanji := by
  have h5 := enum_decoder_fallbacks ⟨0, 5, 0, 7, [], 0, 0⟩
  have h0 := enum_decoder_fallbacks ⟨0, 0, 0, 1, [], 0, 0⟩
  have h1 := enum_decoder_fallbacks ⟨0, 1, 0, 2, [], 0, 0⟩
  have h2 := enum_decoder_fallbacks ⟨0, 2, 0, 4, [], 0, 0⟩
  have h3 := enum_decoder_fallbacks ⟨0, 3, 0, 8, [], 0, 0⟩
  exact ⟨h5.2.2.2.2.1 (by decide) (by decide) (by decide) (by decide),
    h5.2.2.2.2.2.2.2.2.2 (by decide) (by decide) (by decide) (by decide),
    h0.1 (by decide), h0.2.2.2.2.2.1 (by decide),
    h1.2.1 (by decide), h1.2.2.2.2.2.2.1 (by decide),
    h2.2.2.1 (by decide), h2.2.2.2.2.2.2.2.1 (by decide),
    h3.2.2.2.1 (by decide), h3.2.2.2.2.2.2.2.2.1 (by decide)⟩

/-- Claim C2 (code bug evidence): at `payload_len = -1` (a valid raw engine
field value) the clamp intended by `max(0, min(payload_len as _,
QUIRC_MAX_PAYLOAD))` in `src/info.rs` line 80 runs after the `as usize`
cast, so `payload()` returns the whole `QUIRC_MAX_PAYLOAD`-byte buffer
instead of the 0 bytes the specification's `clamp(payload_len, 0,
MAX_PAYLOAD)` demands. -/
theorem payload_negative_len_bug :
    dataNegLen.payload_len < 0 ∧
    dataNegLen.payload.length = QUIRC_MAX_PAYLOAD ∧
    (Info.payload dataNegLen).length = QUIRC_MAX_PAYLOAD := by
  refine ⟨by decide, by simp [dataNegLen], ?_⟩
  have hw : wrapToNat usizeBytes (-1 : Int) = 2 ^ 64 - 1 := by decide
  simp only [Info.payload, dataNegLen, List.length_take, List.length_replicate,
    hw]
  norm_num [QUIRC_MAX_PAYLOAD]

/-- Claim C5 (counterexample): with an empty buffer and dimensions
`2^32 x 2^32` the `usize` product wraps to `0`, so `Image::new` succeeds
although the buffer length does not equal the mathematical product
`size.x * size.y`, contradicting the claim's "succeeds if and only if
`data.len() == size.x * size.y`". -/
theorem image_new_overflow_counterexample :
    Image.new [] ⟨2 ^ 32, 2 ^ 32⟩ = Except.ok ⟨[], ⟨2 ^ 32, 2 ^ 32⟩⟩ ∧
    ([] : List Nat).length ≠ 2 ^ 32 * 2 ^ 32 := by
  constructor
  · unfold Image.new
    norm_num [usizeBytes]
  · norm_num

/-- Claim C5 as amended: `Image::new` succeeds iff the buffer length equals
the product `size.x * size.y` computed in wrapping `usize` arithmetic
(modulo `2^64`); in particular, whenever the product does not overflow it
succeeds iff the length equals the true product; otherwise it fails with
`SizeMismatch`; it never panics (wrapping release semantics). -/
theorem image_new_wrapping (data : List Nat) (size : Vec2D) :
    (Image.new data size = Except.ok ⟨data, size⟩ ↔
      data.length = (size.x * size.y) % 2 ^ (8 * usizeBytes)) ∧
    (data.length ≠ (size.x * size.y) % 2 ^ (8 * usizeBytes) →
      Image.new data size = Except.error Error.SizeMismatch) ∧
    (size.x * size.y < 2 ^ (8 * usizeBytes) →
      (Image.new data size = Except.ok ⟨data, size⟩ ↔
        data.length = size.x * size.y)) := by
  unfold Image.new
  refine ⟨?_, ?_, ?_⟩
  · split_ifs with h <;> simp [h]
  · intro h
    rw [if_neg h]
  · intro hlt
    rw [Nat.mod_eq_of_lt hlt]
    split_ifs with h <;> simp [h]

/-- Witness for the amended C5: a matching buffer is accepted and a
mismatched one is rejected with `SizeMismatch`. -/
theorem image_new_wrapping_witness :
    Image.new [0, 0] ⟨1, 2⟩ = Except.ok ⟨[0, 0], ⟨1, 2⟩⟩ ∧
    Image.new [0] ⟨1, 2⟩ = Except.error Error.SizeMismatch := by
  have h := image_new_wrapping [0, 0] ⟨1, 2⟩
  have h2 := image_new_wrapping [0] ⟨1, 2⟩
  exact ⟨(h.2.2 (by decide)).mpr (by decide), h2.2.1 (by decide)⟩

/-- Claim C7: `usize_to_int` succeeds (returning the same value) iff
`n <= INT_MAX`, else fails with `IntOverflow`; `int_to_usize` succeeds iff
`0 <= m <= usize::MAX`, else fails with `IntOverflow` - for every relative
ordering of the two byte widths `su` (`usize`) and `si` (`c_int`). -/
theorem integer_bridge_success_iff (su si : Nat) (hsu : 1 ≤ su)
    (hsi : 1 ≤ si) :
    (∀ n : Nat, n ≤ usizeMax su →
      ((n : Int) ≤ intMax si → usize_to_int su si n = Except.ok (n : Int)) ∧
      (intMax si < (n : Int) →
        usize_to_int su si n = Except.error Error.IntOverflow)) ∧
    (∀ m : Int, intMin si ≤ m → m ≤ intMax si →
      (0 ≤ m → m ≤ ((usizeMax su : Nat) : Int) →
        int_to_usize su si m = Except.ok m.toNat) ∧
      ((m < 0 ∨ ((usizeMax su : Nat) : Int) < m) →
        int_to_usize su si m = Except.error Error.IntOverflow)) := by
  constructor
  · intro n hn
    exact ⟨usize_to_int_ok su si n, usize_to_int_err su si n hn⟩
  · intro m hmin hmax
    exact ⟨int_to_usize_ok su si m, int_to_usize_err su si m hmax⟩

/-- Witness for C7 on the concrete 64-bit platform (`su = 8`, `si = 4`):
a small value round-trips, `2^63` overflows the `c_int` direction, and `-1`
overflows the `usize` direction. -/
theorem integer_bridge_success_iff_witness :
    usize_to_int 8 4 5 = Except.ok 5 ∧
    usize_to_int 8 4 (2 ^ 63) = Except.error Error.IntOverflow ∧
    int_to_usize 8 4 7 = Except.ok 7 ∧
    int_to_usize 8 4 (-1) = Except.error Error.IntOverflow := by
  have h := integer_bridge_success_iff 8 4 (by decide) (by decide)
  refine ⟨(h.1 5 (by decide)).1 (by decide),
    (h.1 (2 ^ 63) (by decide)).2 (by decide), ?_, ?_⟩
  · have hv := (h.2 7 (by decide) (by decide)).1 (by decide) (by decide)
    simpa using hv
  · exact (h.2 (-1) (by decide) (by decide)).2 (Or.inl (by decide))

/-- Claim C6 (round-trip law): for every value representable in both
integer widths, converting through the bridge and back is the identity, in
both directions. -/
theorem integer_bridge_round_trip (su si : Nat) (hsu : 1 ≤ su)
    (hsi : 1 ≤ si) :
    (∀ n : Nat, n ≤ usizeMax su → (n : Int) ≤ intMax si →
      Except.bind (usize_to_int su si n) (int_to_usize su si) =
        Except.ok n) ∧
    (∀ m : Int, 0 ≤ m → m ≤ intMax si → m ≤ ((usizeMax su : Nat) : Int) →
      Except.bind (int_to_usize su si m) (usize_to_int su si) =
        Except.ok m) := by
  constructor
  · intro n hn h
    rw [usize_to_int_ok su si n h]
    show int_to_usize su si (n : Int) = Except.ok n
    rw [int_to_usize_ok su si (n : Int) (by positivity) (by exact_mod_cast hn)]
    simp
  · intro m h0 hmax hle
    rw [int_to_usize_ok su si m h0 hle]
    show usize_to_int su si m.toNat = Except.ok m
    rw [usize_to_int_ok su si m.toNat (by rw [Int.toNat_of_nonneg h0]; exact hmax)]
    rw [Int.toNat_of_nonneg h0]

/-- Witness for C6 on the concrete 64-bit platform: `5` and `7` round-trip
in the respective directions. -/
theorem integer_bridge_round_trip_witness :
    Except.bind (usize_to_int 8 4 5) (int_to_usize 8 4) = Except.ok 5 ∧
    Except.bind (int_to_usize 8 4 7) (usize_to_int 8 4) = Except.ok 7 := by
  have h := integer_bridge_round_trip 8 4 (by decide) (by decide)
  exact ⟨h.1 5 (by decide) (by decide),
    h.2 7 (by decide) (by decide) (by decide)⟩

theorem int_to_usize_concrete (n : Int) :
    int_to_usize usizeBytes intBytes n =
      if n < 0 then Except.error Error.IntOverflow
      else Except.ok (wrapToNat usizeBytes n) := by
  unfold int_to_usize
  have h : intBytes ≤ usizeBytes := by decide
  split_ifs with h1
  · rfl
  · rfl

theorem vec2d_fromRaw_ok (p : QuircPoint) (hx : 0 ≤ p.x) (hy : 0 ≤ p.y) :
    Vec2D.fromRaw p =
      Except.ok ⟨wrapToNat usizeBytes p.x, wrapToNat usizeBytes p.y⟩ := by
  simp only [Vec2D.fromRaw, int_to_usize_concrete, if_neg (not_lt.mpr hx),
    if_neg (not_lt.mpr hy)]
  rfl

theorem fromRaw_ok_of_nonneg (c : QuircCode) (hsz : 0 ≤ c.size)
    (hc : ∀ i : Fin 4, 0 ≤ (c.corners i).x ∧ 0 ≤ (c.corners i).y) :
    QrCode.fromRaw c = Except.ok c := by
  simp only [QrCode.fromRaw, int_to_usize_concrete, if_neg (not_lt.mpr hsz),
    vec2d_fromRaw_ok (c.corners 0) (hc 0).1 (hc 0).2,
    vec2d_fromRaw_ok (c.corners 1) (hc 1).1 (hc 1).2,
    vec2d_fromRaw_ok (c.corners 2) (hc 2).1 (hc 2).2,
    vec2d_fromRaw_ok (c.corners 3) (hc 3).1 (hc 3).2]
  rfl

theorem fromRaw_ok_size_nonneg (c q : QuircCode)
    (h : QrCode.fromRaw c = Except.ok q) : 0 ≤ c.size := by
  by_contra hneg
  push_neg at hneg
  have hconv := int_to_usize_concrete c.size
  rw [if_pos hneg] at hconv
  unfold QrCode.fromRaw at h
  rw [hconv] at h
  simp [Bind.bind, Except.bind] at h

theorem qrSize_eq (c : QuircCode) (h0 : 0 ≤ c.size)
    (hlt : c.size < (2 : Int) ^ (8 * usizeBytes)) :
    QrCode.size c = some c.size.toNat := by
  unfold QrCode.size
  rw [int_to_usize_concrete, if_neg (not_lt.mpr h0),
    wrapToNat_eq_of_lt usizeBytes c.size h0 hlt]

/-- Claim C4 (counterexample): the raw record `raw178` (grid size 178, all
corners zero, full-capacity bitmap buffer) is accepted by
`QrCode::from_raw`, yet `bitmap()` panics (modelled by `none`): it asks for
`ceil(178^2/8) = 3961` bytes from the 3917-byte buffer. -/
theorem bitmap_oob_counterexample :
    (∃ q, QrCode.fromRaw raw178 = Except.ok q) ∧
    raw178.cell_bitmap.length = QUIRC_MAX_BITMAP ∧
    QrCode.bitmap raw178 = none := by
  refine ⟨⟨raw178, ?_⟩, List.length_replicate _ _, ?_⟩
  · apply fromRaw_ok_of_nonneg
    · decide
    · intro i
      exact ⟨by simp [raw178, zeroPoint], by simp [raw178, zeroPoint]⟩
  · have hsize : QrCode.size raw178 = some 178 := by
      have h := qrSize_eq raw178 (by decide) (by decide)
      simpa using h
    have hlen : raw178.cell_bitmap.length = 3917 := by
      exact List.length_replicate _ _
    simp only [QrCode.bitmap, hsize]
    rw [if_neg (by rw [hlen]; norm_num)]

/-- Claim C4 as amended: for every raw detection record accepted by
`QrCode::from_raw` whose grid size is at most 177 (the largest size the
engine can produce; `from_raw` itself does not check this), `bitmap()`
does not panic and returns exactly `ceil(size^2/8)` bytes, where `size` is
the value returned by `size()`. -/
theorem bitmap_len_of_valid_size (c : QuircCode)
    (hacc : ∃ q, QrCode.fromRaw c = Except.ok q) (hs : c.size ≤ 177)
    (hb : c.cell_bitmap.length = QUIRC_MAX_BITMAP) :
    QrCode.size c = some c.size.toNat ∧
    ∃ l, QrCode.bitmap c = some l ∧
      l.length = (c.size.toNat * c.size.toNat + 7) / 8 := by
  obtain ⟨q, hq⟩ := hacc
  have h0 : 0 ≤ c.size := fromRaw_ok_size_nonneg c q hq
  have hsize : QrCode.size c = some c.size.toNat := by
    apply qrSize_eq c h0
    have : ((2 : Int) ^ (8 * usizeBytes)) = 2 ^ 64 := by norm_num [usizeBytes]
    rw [this]
    calc c.size ≤ 177 := hs
    _ < 2 ^ 64 := by norm_num
  have h37 : QUIRC_MAX_BITMAP = 3917 := rfl
  have hsnat : c.size.toNat ≤ 177 := by omega
  have hbytes : (c.size.toNat * c.size.toNat + 7) / 8 ≤ 3917 := by
    have hmul : c.size.toNat * c.size.toNat ≤ 177 * 177 :=
      Nat.mul_le_mul hsnat hsnat
    omega
  refine ⟨hsize, c.cell_bitmap.take ((c.size.toNat * c.size.toNat + 7) / 8),
    ?_, ?_⟩
  · simp only [QrCode.bitmap, hsize]
    rw [if_pos (by omega)]
  · rw [List.length_take]
    omega

theorem get_eq_none_of_oob_byte (c : QuircCode) (p : Vec2D) (s : Nat)
    (hsize : QrCode.size c = some s) (hin : p.x < s ∧ p.y < s)
    (hnone : c.cell_bitmap[(p.y * s + p.x) / 8]? = none) :
    QrCode.get c p = none := by
  simp only [QrCode.get, hsize]
  rw [if_pos hin, hnone]

/-- Claim C3 (counterexample): `raw178` is accepted by `QrCode::from_raw`
and the coordinate `(8, 176)` is in range (`8 < 178` and `176 < 178`), yet
the checked accessor `get` panics (modelled by `none`) instead of returning
`Some(b)`: the bit index is `176*178 + 8 = 31336`, whose byte index
`31336/8 = 3917` is out of bounds for the 3917-byte bitmap buffer. -/
theorem get_panic_counterexample :
    (∃ q, QrCode.fromRaw raw178 = Except.ok q) ∧
    QrCode.size raw178 = some 178 ∧
    (8 < 178 ∧ 176 < 178) ∧
    QrCode.get raw178 ⟨8, 176⟩ = none := by
  have hacc : QrCode.fromRaw raw178 = Except.ok raw178 := by
    apply fromRaw_ok_of_nonneg
    · decide
    · intro i
      exact ⟨by simp [raw178, zeroPoint], by simp [raw178, zeroPoint]⟩
  have hsize : QrCode.size raw178 = some 178 := by
    have h := qrSize_eq raw178 (by decide) (by decide)
    simpa using h
  have hlen : raw178.cell_bitmap.length = 3917 :=
    List.length_replicate _ _
  refine ⟨⟨raw178, hacc⟩, hsize, by norm_num, ?_⟩
  apply get_eq_none_of_oob_byte raw178 ⟨8, 176⟩ 178 hsize (by norm_num)
  apply List.getElem?_eq_none
  rw [hlen]
  norm_num

/-- Claim C3 as amended: for every raw detection record accepted by
`QrCode::from_raw` whose grid size is at most 177 (the largest size the
engine can produce; `from_raw` itself does not check this), `get` returns
`None` for every out-of-range coordinate and, for every in-range
coordinate, returns - without panicking - `Some` of bit number
`y*size + x` of the cell bitmap under LSB-first bit ordering within each
byte. -/
theorem get_checked_of_valid_size (c : QuircCode)
    (hacc : ∃ q, QrCode.fromRaw c = Except.ok q) (hs : c.size ≤ 177)
    (hb : c.cell_bitmap.length = QUIRC_MAX_BITMAP) :
    (∀ p : Vec2D, c.size.toNat ≤ p.x ∨ c.size.toNat ≤ p.y →
      QrCode.get c p = some none) ∧
    (∀ p : Vec2D, p.x < c.size.toNat → p.y < c.size.toNat →
      QrCode.get c p =
        some (some (bitAtLSB c.cell_bitmap (p.y * c.size.toNat + p.x)))) := by
  obtain ⟨q, hq⟩ := hacc
  have h0 : 0 ≤ c.size := fromRaw_ok_size_nonneg c q hq
  have hsize : QrCode.size c = some c.size.toNat := by
    apply qrSize_eq c h0
    have : ((2 : Int) ^ (8 * usizeBytes)) = 2 ^ 64 := by norm_num [usizeBytes]
    rw [this]
    calc c.size ≤ 177 := hs
    _ < 2 ^ 64 := by norm_num
  have h37 : QUIRC_MAX_BITMAP = 3917 := rfl
  have hsnat : c.size.toNat ≤ 177 := by omega
  constructor
  · intro p hp
    simp only [QrCode.get, hsize]
    rw [if_neg (by omega)]
  · intro p hx hy
    have hi : p.y * c.size.toNat + p.x < c.size.toNat * c.size.toNat := by
      calc p.y * c.size.toNat + p.x < p.y * c.size.toNat + c.size.toNat := by
            omega
      _ = (p.y + 1) * c.size.toNat := by ring
      _ ≤ c.size.toNat * c.size.toNat := Nat.mul_le_mul_right _ hy
    have himax : p.y * c.size.toNat + p.x < 31329 := by
      have : c.size.toNat * c.size.toNat ≤ 177 * 177 :=
        Nat.mul_le_mul hsnat hsnat
      omega
    have hdiv : (p.y * c.size.toNat + p.x) / 8 < c.cell_bitmap.length := by
      omega
    simp only [QrCode.get, hsize]
    rw [if_pos ⟨hx, hy⟩]
    rw [List.getElem?_eq_getElem hdiv]
    unfold bitAtLSB
    rw [List.getD_eq_getElem?_getD, List.getElem?_eq_getElem hdiv]
    rfl

/-- Witness for the amended C4 at the concrete record `raw21`
(grid size 21): `bitmap()` returns `ceil(21^2/8) = 56` bytes. -/
theorem bitmap_len_of_valid_size_witness :
    ∃ l, QrCode.bitmap raw21 = some l ∧ l.length = (21 * 21 + 7) / 8 := by
  have h := bitmap_len_of_valid_size raw21
    ⟨raw21, by
      apply fromRaw_ok_of_nonneg
      · decide
      · intro i
        exact ⟨by simp [raw21, zeroPoint], by simp [raw21, zeroPoint]⟩⟩
    (by decide) (List.length_replicate _ _)
  have h2 := h.2
  have hred : raw21.size.toNat = 21 := rfl
  rw [hred] at h2
  exact h2

/-- Witness for the amended C3 at the concrete record `raw21`: coordinate
`(25, 0)` is out of range and yields `None`; coordinate `(1, 2)` is in
range and yields the addressed bit without panicking. -/
theorem get_checked_of_valid_size_witness :
    QrCode.get raw21 ⟨25, 0⟩ = some none ∧
    QrCode.get raw21 ⟨1, 2⟩ =
      some (some (bitAtLSB raw21.cell_bitmap (2 * 21 + 1))) := by
  have h := get_checked_of_valid_size raw21
    ⟨raw21, by
      apply fromRaw_ok_of_nonneg
      · decide
      · intro i
        exact ⟨by simp [raw21, zeroPoint], by simp [raw21, zeroPoint]⟩⟩
    (by decide) (List.length_replicate _ _)
  constructor
  · exact h.1 ⟨25, 0⟩ (by left; decide)
  · have hin := h.2 ⟨1, 2⟩ (by decide) (by decide)
    simpa using hin

/-- Claim C1: after a scan whose engine reports a constant non-negative
count `k` (a valid `c_int` value), the iterator's cursor after `n` steps is
`min n k`; every step with cursor `n < k` extracts the code at index `n`
and increments the cursor; every step at cursor `k` (reached once `n >= k`
steps were taken) yields `None` and leaves the cursor at `k`, so exactly
`k` items are produced, at indices `0, 1, .., k-1` in increasing order;
and at every cursor `c <= k` the `size_hint` is exactly
`(k - c, Some (k - c))`. -/
theorem iterator_yields_exactly_count (e : Engine) (k : Int)
    (hk : e.count = k) (h0 : 0 ≤ k) (hmax : k ≤ intMax intBytes) :
    (∀ n : Nat, iterStepsIndex e n = min (n : Int) k) ∧
    (∀ n : Nat, (n : Int) < k →
      iterNext e (iterStepsIndex e n) =
        some (some (QrCode.fromRaw (e.extract (n : Int))), (n : Int) + 1)) ∧
    (∀ n : Nat, k ≤ (n : Int) →
      iterNext e (iterStepsIndex e n) = some (none, k)) ∧
    (∀ c : Int, 0 ≤ c → c ≤ k →
      iterSizeHint e c = some ((k - c).toNat, some ((k - c).toNat))) := by
  have hci : ∀ idx : Int, 0 ≤ idx → countAndIndex e idx = some (k, idx) := by
    intro idx hidx
    unfold countAndIndex
    rw [hk, if_pos ⟨h0, hidx⟩]
  have hnext : ∀ idx : Int, 0 ≤ idx →
      iterNext e idx =
        if idx < k then
          some (some (QrCode.fromRaw (e.extract idx)), idx + 1)
        else
          some (none, idx) := by
    intro idx hidx
    unfold iterNext
    rw [hci idx hidx]
  have ha : ∀ n : Nat, iterStepsIndex e n = min (n : Int) k := by
    intro n
    induction n with
    | zero =>
      show (0 : Int) = min ((0 : Nat) : Int) k
      push_cast
      omega
    | succ n ih =>
      have hmin0 : 0 ≤ min (n : Int) k := by
        have : (0 : Int) ≤ (n : Int) := Int.natCast_nonneg n
        omega
      show (match iterNext e (iterStepsIndex e n) with
        | some (_, idx) => idx
        | none => iterStepsIndex e n) = min ((n + 1 : Nat) : Int) k
      rw [ih, hnext _ hmin0]
      by_cases hc : min (n : Int) k < k
      · rw [if_pos hc]
        show min (n : Int) k + 1 = min ((n + 1 : Nat) : Int) k
        push_cast
        omega
      · rw [if_neg hc]
        show min (n : Int) k = min ((n + 1 : Nat) : Int) k
        push_cast
        omega
  refine ⟨ha, ?_, ?_, ?_⟩
  · intro n hn
    rw [ha n]
    have hmin : min (n : Int) k = (n : Int) := by omega
    rw [hmin, hnext (n : Int) (Int.natCast_nonneg n), if_pos hn]
  · intro n hkn
    rw [ha n]
    have hmin : min (n : Int) k = k := by omega
    rw [hmin, hnext k h0, if_neg (by omega)]
  · intro c hc0 hck
    have hconv : int_to_usize usizeBytes intBytes (k - c) =
        Except.ok (k - c).toNat := by
      rw [int_to_usize_concrete, if_neg (by omega)]
      have hm : intMax intBytes = 2 ^ 31 - 1 := by norm_num [intMax, intBytes]
      have hp : ((2 : Int) ^ (8 * usizeBytes)) = 2 ^ 64 := by
        norm_num [usizeBytes]
      rw [wrapToNat_eq_of_lt usizeBytes (k - c) (by omega) (by omega)]
    unfold iterSizeHint
    rw [hci c hc0]
    show some (match int_to_usize usizeBytes intBytes (k - c) with
      | Except.ok n => (n, some n)
      | Except.error _ => (0, none)) =
        some ((k - c).toNat, some ((k - c).toNat))
    rw [hconv]

/-- Witness for C1 at the concrete engine `engineTwo` (count 2): the cursor
starts at 0, the first step extracts index 0 and moves the cursor to 1,
after two steps the iterator yields `None` with the cursor stuck at 2, and
at cursor 1 the remaining-length estimate is exactly `(1, Some 1)`. -/
theorem iterator_yields_exactly_count_witness :
    iterStepsIndex engineTwo 0 = 0 ∧
    iterNext engineTwo (iterStepsIndex engineTwo 0) =
      some (some (QrCode.fromRaw (engineTwo.extract 0)), 1) ∧
    iterNext engineTwo (iterStepsIndex engineTwo 2) = some (none, 2) ∧
    iterSizeHint engineTwo 1 = some (1, some 1) := by
  have h := iterator_yields_exactly_count engineTwo 2 rfl (by decide)
    (by decide)
  refine ⟨?_, ?_, ?_, ?_⟩
  · have h1 := h.1 0
    simpa using h1
  · have h2 := h.2.1 0 (by decide)
    simpa using h2
  · have h3 := h.2.2.1 2 (by decide)
    simpa using h3
  · have h4 := h.2.2.2 1 (by decide) (by decide)
    simpa using h4
